import Mathlib

/-!
Shallow embedding of src/flightaware/client/adeptclient.py.

The binary UDP batcher (UdpServerConnection), the line-oriented text
reader (AdeptReader) and writer (AdeptWriter) are translated into pure
Lean functions.  Bytes are modelled as Nat values below 256, timestamps
as Nat (the Python integers packed as big-endian uint64), deltas as Int
(packed as int32 twos-complement).  Socket effects are reduced to the
state fields they touch: the number of sock.send attempts and the
statistics counters become explicit state fields; the success of a send
is an external Bool that the code discards (try/except socket.error:
pass).
-/

namespace Adept

/-- Decoded surveillance message (mlat.client input type): ICAO address,
timer-tick timestamp, raw payload bytes, downlink format. -/
structure Message where
  address : Nat
  timestamp : Nat
  payload : List Nat
  df : Nat
deriving DecidableEq

/-- Submessages of the binary UDP protocol (tag bytes 1,2,3,5,6). -/
inductive Submsg where
  | sync (address : Nat) (edelta odelta : Int) (pe po : List Nat)
  | mlatShort (address : Nat) (delta : Int) (p : List Nat)
  | mlatLong (address : Nat) (delta : Int) (p : List Nat)
  | rebase (base : Nat)
  | absSync (address : Nat) (tse tso : Nat) (pe po : List Nat)
deriving DecidableEq

/-- One record packed into the datagram buffer: the 14-byte datagram
header (STRUCT_HEADER) or a submessage. -/
inductive Item where
  | header (key seq base : Nat)
  | sub (m : Submsg)
deriving DecidableEq

/-- STRUCT_HEADER.size for the format >IHQ. -/
def HEADER_SIZE : Nat := 14
/-- STRUCT_REBASE.size for the format >BQ. -/
def REBASE_SIZE : Nat := 9
/-- STRUCT_MLAT_SHORT.size for the format >B3Bi7s. -/
def MLAT_SHORT_SIZE : Nat := 15
/-- STRUCT_MLAT_LONG.size for the format >B3Bi14s. -/
def MLAT_LONG_SIZE : Nat := 22
/-- STRUCT_SYNC.size for the format >B3Bii14s14s. -/
def SYNC_SIZE : Nat := 40
/-- STRUCT_ABS_SYNC.size for the format >B3BQQ14s14s. -/
def ABS_SYNC_SIZE : Nat := 48

/-- State of a UdpServerConnection: the fields mutated by the batching
logic, plus the statistics counter server_udp_bytes and an explicit
count of sock.send attempts (each flush of a non-empty buffer performs
exactly one). -/
structure UdpState where
  key : Nat
  base_timestamp : Option Nat
  used : Nat
  seq : Nat
  count : Nat
  udpBytes : Nat
  sendAttempts : Nat
deriving DecidableEq

/-- UdpServerConnection.__init__: empty buffer, zero counters. -/
def initUdp (key : Nat) : UdpState :=
  { key := key, base_timestamp := none, used := 0, seq := 0, count := 0,
    udpBytes := 0, sendAttempts := 0 }

/-- UdpServerConnection.start: opens and connects the UDP socket; none of
the batch-state fields change. -/
def start (s : UdpState) : UdpState := s

/-- The base timestamp the Python code reads from self.base_timestamp.
When it is read it has always been set by prepare_header or rebase; the
default 0 is never reached from a state arising in the code. -/
def baseOf (s : UdpState) : Nat := s.base_timestamp.getD 0

/-- UdpServerConnection.prepare_header: set the base timestamp and pack
STRUCT_HEADER at offset 0; used grows by HEADER_SIZE.  The packed item is
Item.header s.key s.seq timestamp (constructed at the call sites). -/
def prepare_header (timestamp : Nat) (s : UdpState) : UdpState :=
  { s with base_timestamp := some timestamp, used := s.used + HEADER_SIZE }

/-- UdpServerConnection.rebase: set the base timestamp and pack
STRUCT_REBASE at offset used.  The packed item is
Item.sub (Submsg.rebase timestamp) (constructed at the call sites). -/
def rebase (timestamp : Nat) (s : UdpState) : UdpState :=
  { s with base_timestamp := some timestamp, used := s.used + REBASE_SIZE }

/-- UdpServerConnection.flush: no-op on an empty buffer; otherwise one
sock.send attempt whose failure is swallowed (try/except socket.error:
pass), the server_udp_bytes statistic grows by used regardless of the
send outcome, and the buffer state is reset. -/
def flush (_sendOk : Bool) (s : UdpState) : UdpState :=
  if s.used = 0 then s
  else
    { s with sendAttempts := s.sendAttempts + 1,
             udpBytes := s.udpBytes + s.used,
             used := 0,
             base_timestamp := none,
             seq := (s.seq + 1) % 65536,
             count := s.count + 1 }

/-- UdpServerConnection.close: resets used to 0 and closes the socket;
base_timestamp, seq, count and the statistics are left untouched and no
send is attempted. -/
def close (s : UdpState) : UdpState :=
  { s with used := 0 }

/-- UdpServerConnection.send_mlat without the final occupancy check:
lazily pack the header, compute delta from the base, rebase when
abs delta exceeds 0x7FFFFFF0, then pack MLAT_SHORT when the payload has
7 bytes and MLAT_LONG otherwise.  Returns the state plus the items
packed during the call, in packing order. -/
def send_mlat_core (m : Message) (s0 : UdpState) : UdpState × List Item :=
  let s1 := if s0.used = 0 then prepare_header m.timestamp s0 else s0
  let hdr : List Item :=
    if s0.used = 0 then [Item.header s0.key s0.seq m.timestamp] else []
  let delta0 : Int := (m.timestamp : Int) - (baseOf s1 : Nat)
  let doReb : Bool := delta0.natAbs > 0x7FFFFFF0
  let s2 := if doReb then rebase m.timestamp s1 else s1
  let reb : List Item :=
    if doReb then [Item.sub (Submsg.rebase m.timestamp)] else []
  let delta : Int := if doReb then 0 else delta0
  let isShort : Bool := m.payload.length = 7
  let dat : Item :=
    if isShort then Item.sub (Submsg.mlatShort m.address delta m.payload)
    else Item.sub (Submsg.mlatLong m.address delta m.payload)
  let size : Nat := if isShort then MLAT_SHORT_SIZE else MLAT_LONG_SIZE
  ({ s2 with used := s2.used + size }, hdr ++ reb ++ [dat])

/-- UdpServerConnection.send_mlat: the core packing followed by the
occupancy check (flush when used exceeds 1400). -/
def send_mlat (sendOk : Bool) (m : Message) (s0 : UdpState) :
    UdpState × List Item :=
  let r := send_mlat_core m s0
  (if r.1.used > 1400 then flush sendOk r.1 else r.1, r.2)

/-- UdpServerConnection.send_sync without the final occupancy check:
lazily pack the header at the mean timestamp, use ABS_SYNC when the two
timestamps differ by more than 0xFFFFFFF0, otherwise delta-encode
against the base, rebasing to the mean first when a delta would exceed
0x7FFFFFF0.  (The Python mean int((em.timestamp + om.timestamp) / 2)
equals the integer mean for timestamps in the float-exact range.) -/
def send_sync_core (em om : Message) (s0 : UdpState) : UdpState × List Item :=
  let mean : Nat := (em.timestamp + om.timestamp) / 2
  let s1 := if s0.used = 0 then prepare_header mean s0 else s0
  let hdr : List Item :=
    if s0.used = 0 then [Item.header s0.key s0.seq mean] else []
  if ((em.timestamp : Int) - (om.timestamp : Int)).natAbs > 0xFFFFFFF0 then
    ({ s1 with used := s1.used + ABS_SYNC_SIZE },
     hdr ++ [Item.sub (Submsg.absSync em.address em.timestamp om.timestamp
                        em.payload om.payload)])
  else
    let edelta0 : Int := (em.timestamp : Int) - (baseOf s1 : Nat)
    let odelta0 : Int := (om.timestamp : Int) - (baseOf s1 : Nat)
    let doReb : Bool := edelta0.natAbs > 0x7FFFFFF0 ∨ odelta0.natAbs > 0x7FFFFFF0
    let s2 := if doReb then rebase mean s1 else s1
    let reb : List Item :=
      if doReb then [Item.sub (Submsg.rebase mean)] else []
    let edelta : Int := (em.timestamp : Int) - (baseOf s2 : Nat)
    let odelta : Int := (om.timestamp : Int) - (baseOf s2 : Nat)
    ({ s2 with used := s2.used + SYNC_SIZE },
     hdr ++ reb ++ [Item.sub (Submsg.sync em.address edelta odelta
                               em.payload om.payload)])

/-- UdpServerConnection.send_sync: the core packing followed by the
occupancy check (flush when used exceeds 1400). -/
def send_sync (sendOk : Bool) (em om : Message) (s0 : UdpState) :
    UdpState × List Item :=
  let r := send_sync_core em om s0
  (if r.1.used > 1400 then flush sendOk r.1 else r.1, r.2)

/-- The data-model invariant of UdpBatchState: the buffer is empty
exactly when no base timestamp is pending. -/
def inv (s : UdpState) : Prop := s.used = 0 ↔ s.base_timestamp = none

instance (s : UdpState) : Decidable (inv s) := by
  unfold inv; infer_instance

/-- Big-endian encoding of a value into w bytes, as struct.pack does for
the fixed-width unsigned formats (values are assumed in range; out of
range values would raise struct.error in Python). -/
def beBytes : Nat → Nat → List Nat
  | 0, _ => []
  | w + 1, v => v / 256 ^ w % 256 :: beBytes w v

/-- Big-endian decoding of a byte list back into a value. -/
def fromBE (bs : List Nat) : Nat := bs.foldl (fun a b => a * 256 + b) 0

/-- Twos-complement big-endian int32, as struct.pack produces for the
signed 4-byte format (the code only ever packs deltas in range). -/
def int32bytes (d : Int) : List Nat := beBytes 4 (d % (2 ^ 32 : Int)).toNat

/-- The three address bytes the code passes to pack: address >> 16,
(address >> 8) & 255, address & 255 (addresses are below 2^24). -/
def addrBytes (a : Nat) : List Nat := [a / 65536 % 256, a / 256 % 256, a % 256]

/-- struct.pack with a fixed-width byte-string format: the byte string
is truncated or zero-padded to exactly n bytes. -/
def padTo (n : Nat) (p : List Nat) : List Nat :=
  p.take n ++ List.replicate (n - p.length) 0

/-- Wire bytes of a submessage, following the STRUCT_* formats. -/
def encodeSub : Submsg → List Nat
  | Submsg.sync a ed od pe po =>
      1 :: (addrBytes a ++ int32bytes ed ++ int32bytes od ++
            padTo 14 pe ++ padTo 14 po)
  | Submsg.mlatShort a d p => 2 :: (addrBytes a ++ int32bytes d ++ padTo 7 p)
  | Submsg.mlatLong a d p => 3 :: (addrBytes a ++ int32bytes d ++ padTo 14 p)
  | Submsg.rebase b => 5 :: beBytes 8 b
  | Submsg.absSync a tse tso pe po =>
      6 :: (addrBytes a ++ beBytes 8 tse ++ beBytes 8 tso ++
            padTo 14 pe ++ padTo 14 po)

/-- Wire bytes of a packed item (header format >IHQ or a submessage). -/
def encodeItem : Item → List Nat
  | Item.header k q b => beBytes 4 k ++ beBytes 2 q ++ beBytes 8 b
  | Item.sub m => encodeSub m

/-- The size the code adds to used when packing an item: the
STRUCT_*.size constants. -/
def itemSize : Item → Nat
  | Item.header _ _ _ => HEADER_SIZE
  | Item.sub (Submsg.sync _ _ _ _ _) => SYNC_SIZE
  | Item.sub (Submsg.mlatShort _ _ _) => MLAT_SHORT_SIZE
  | Item.sub (Submsg.mlatLong _ _ _) => MLAT_LONG_SIZE
  | Item.sub (Submsg.rebase _) => REBASE_SIZE
  | Item.sub (Submsg.absSync _ _ _ _ _) => ABS_SYNC_SIZE

/-- Reading the two absolute timestamps back out of the wire bytes of an
ABS_SYNC submessage: 8 bytes at offset 4 and 8 bytes at offset 12. -/
def decodeAbsTimestamps (bs : List Nat) : Nat × Nat :=
  (fromBE ((bs.drop 4).take 8), fromBE ((bs.drop 12).take 8))

/-- A data-plane call routed to the UDP transport, together with the
environment answer to the sock.send attempt should the call flush. -/
inductive Op where
  | mlat (sendOk : Bool) (m : Message)
  | sync (sendOk : Bool) (em om : Message)

/-- State after one data-plane call. -/
def stepOp : Op → UdpState → UdpState
  | Op.mlat ok m, s => (send_mlat ok m s).1
  | Op.sync ok em om, s => (send_sync ok em om s).1

/-- Peak buffer occupancy during one call: used only grows while the
call packs items and is reset only by the trailing flush, so the peak is
the occupancy just before the occupancy check. -/
def opPeak : Op → UdpState → Nat
  | Op.mlat _ m, s => (send_mlat_core m s).1.used
  | Op.sync _ em om, s => (send_sync_core em om s).1.used

/-- Peak buffer occupancy over a whole sequence of data-plane calls. -/
def runPeak : List Op → UdpState → Nat
  | [], _ => 0
  | op :: ops, s => max (opPeak op s) (runPeak ops (stepOp op s))

/-- State after a whole sequence of data-plane calls. -/
def runOps : List Op → UdpState → UdpState
  | [], s => s
  | op :: ops, s => runOps ops (stepOp op s)

/-- Python bytes.split(sep) and str.split(sep) with an explicit
separator: splits on every occurrence, keeping empty segments, and
returns one (possibly empty) segment even for empty input. -/
def splitSep [DecidableEq α] (sep : α) : List α → List (List α)
  | [] => [[]]
  | a :: rest =>
    if a = sep then [] :: splitSep sep rest
    else
      match splitSep sep rest with
      | [] => [[a]]
      | h :: t => (a :: h) :: t

/-- Elements at even positions: fields[0::2]. -/
def evens : List α → List α
  | [] => []
  | [x] => [x]
  | x :: _ :: xs => x :: evens xs

/-- Elements at odd positions: fields[1::2]. -/
def odds (l : List α) : List α := evens l.tail

/-- dict(zip(fields[0::2], fields[1::2])) as an association list in
insertion order; zip truncates to the shorter of the two slices. -/
def buildMessage (fields : List α) : List (α × α) :=
  (evens fields).zip (odds fields)

/-- Lookup in the dict built from the pair list: a later assignment to
the same key overwrites an earlier one, so the last occurrence wins. -/
def dictGet [DecidableEq α] (ps : List (α × β)) (k : α) : Option β :=
  (ps.reverse.find? (fun p => p.1 = k)).map (fun p => p.2)

/-- Value of one hexadecimal digit. -/
def hexVal (c : Char) : Option Nat :=
  if '0' ≤ c ∧ c ≤ '9' then some (c.toNat - 48)
  else if 'a' ≤ c ∧ c ≤ 'f' then some (c.toNat - 87)
  else if 'A' ≤ c ∧ c ≤ 'F' then some (c.toNat - 55)
  else none

/-- int(x, 16) on the unsigned hexadecimal digit strings this protocol
carries; none is the ValueError Python raises on a malformed token.
(Python additionally accepts signs, surrounding whitespace and a 0x
prefix, which never occur here.) -/
def parseHex (s : List Char) : Option Nat :=
  if s = [] then none
  else s.foldlM (fun a c => (hexVal c).map (fun v => a * 16 + v)) 0

/-- Outcome of processing one line: which coordinator callback fires
with which argument.  Lines whose handler raises (missing key, bad hex)
are caught by handle_read and dispatch nothing; the field parsing inside
mlat_result and mlat_status is not needed by any claim, so those
dispatches carry the raw key/value record. -/
inductive Dispatch where
  | none
  | startSending (wanted : Finset Nat)
  | stopSending (unwanted : Finset Nat)
  | result (message : List (List Char × List Char))
  | status (message : List (List Char × List Char))
deriving DecidableEq

/-- AdeptReader.process_wanted_message: empty hexids means the empty
set, otherwise the set of hex-parsed space-separated tokens; a KeyError
or ValueError aborts the line. -/
def process_wanted_message (message : List (List Char × List Char)) : Dispatch :=
  match dictGet message "hexids".data with
  | Option.none => Dispatch.none
  | some v =>
    if v = [] then Dispatch.startSending ∅
    else
      match (splitSep ' ' v).mapM parseHex with
      | some xs => Dispatch.startSending xs.toFinset
      | Option.none => Dispatch.none

/-- AdeptReader.process_unwanted_message: same parsing as
process_wanted_message, dispatched to server_stop_sending. -/
def process_unwanted_message (message : List (List Char × List Char)) : Dispatch :=
  match dictGet message "hexids".data with
  | Option.none => Dispatch.none
  | some v =>
    if v = [] then Dispatch.stopSending ∅
    else
      match (splitSep ' ' v).mapM parseHex with
      | some xs => Dispatch.stopSending xs.toFinset
      | Option.none => Dispatch.none

/-- AdeptReader.process_line: split on tab, pair into a dict, select the
handler by the type field; a missing type key raises (caught by the
caller) and unknown types are ignored. -/
def process_line (line : List Char) : Dispatch :=
  let message := buildMessage (splitSep '\t' line)
  match dictGet message "type".data with
  | Option.none => Dispatch.none
  | some t =>
    if t = "mlat_wanted".data then process_wanted_message message
    else if t = "mlat_unwanted".data then process_unwanted_message message
    else if t = "mlat_result".data then Dispatch.result message
    else if t = "mlat_status".data then Dispatch.status message
    else Dispatch.none

/-- ASCII decoding of a byte line, defined for byte values below 128. -/
def decodeAscii (bs : List Nat) : List Char := bs.map Char.ofNat

/-- What one complete line dispatches: decode as ASCII and process; a
non-ASCII byte raises UnicodeDecodeError, which handle_read catches, so
such a line dispatches nothing. -/
def dispatchLine (bs : List Nat) : Dispatch :=
  if bs.all (fun b => b < 128) then process_line (decodeAscii bs) else Dispatch.none

/-- AdeptReader.handle_read on one non-empty chunk: prepend the buffered
partial line, split on the newline byte, process every complete segment
and keep the final segment as the new partial line.  Returns the new
partial line and the complete segments in processing order. -/
def handle_read (pline moredata : List Nat) : List Nat × List (List Nat) :=
  let lines := splitSep 10 (pline ++ moredata)
  (lines.getLastD [], lines.dropLast)

/-- Feeding a sequence of chunks through handle_read, collecting every
processed segment in order. -/
def feedAll : List (List Nat) → List Nat → List Nat × List (List Nat)
  | [], p => (p, [])
  | c :: cs, p =>
    let r1 := handle_read p c
    let r2 := feedAll cs r1.1
    (r2.1, r1.2 ++ r2.2)

/-- ASCII encoding of a text line. -/
def encodeAscii (cs : List Char) : List Nat := cs.map Char.toNat

/-- The line AdeptWriter.send_message builds from its keyword arguments:
tab-join of the flattened key/value pairs plus a newline. -/
def formatMessage (kvs : List (List Char × List Char)) : List Char :=
  List.intercalate ['\t'] (kvs.flatMap (fun p => [p.1, p.2])) ++ ['\n']

/-- AdeptWriter.send_message: format the record and append its ASCII
bytes to the write buffer.  Appending performs no length check and
raises nothing. -/
def send_message (writebuf : List Nat) (kvs : List (List Char × List Char)) :
    List Nat :=
  writebuf ++ encodeAscii (formatMessage kvs)

/-- AdeptWriter.handle_write: when the buffer is non-empty, send accepts
sent bytes which are deleted from the front; if more than 65536 bytes
remain unsent afterwards an IOError is raised (which tears the
connection down). -/
def handle_write (sent : Nat) (writebuf : List Nat) :
    Except String (List Nat) :=
  if writebuf = [] then Except.ok writebuf
  else
    let rest := writebuf.drop sent
    if rest.length > 65536 then
      Except.error "Server write buffer overflow (too much unsent data)"
    else Except.ok rest

/-- An auxiliary presentation of list splitting: how the split of a
concatenation is assembled from the splits of the two halves (the last
segment of the first split fuses with the first segment of the second). -/
def joinP : List (List α) → List (List α) → List (List α)
  | [], ys => ys
  | l :: ls, ys =>
    match ls, ys with
    | [], [] => [l]
    | [], h :: t => (l ++ h) :: t
    | l' :: ls', ys => l :: joinP (l' :: ls') ys

end Adept

namespace Adept

/-! ## Helper lemmas -/

theorem evens_cons (y : α) (xs : List α) : evens (y :: xs) = y :: odds xs := by
  cases xs <;> simp [evens, odds]

theorem buildMessage_cons_cons (x y : α) (t : List α) :
    buildMessage (x :: y :: t) = (x, y) :: buildMessage t := by
  simp [buildMessage, evens, odds, evens_cons]

theorem flush_used (ok : Bool) (s : UdpState) : (flush ok s).used = 0 := by
  unfold flush; split <;> simp_all

theorem flush_base (ok : Bool) (s : UdpState) (h : s.used ≠ 0) :
    (flush ok s).base_timestamp = none := by
  unfold flush; split <;> simp_all

theorem inv_flush (ok : Bool) (s : UdpState) (h : inv s) : inv (flush ok s) := by
  unfold flush inv at *
  split <;> simp_all

theorem inv_flush_of_ne (ok : Bool) (s : UdpState) (h : s.used ≠ 0) :
    inv (flush ok s) := by
  unfold flush inv
  simp [h]

theorem inv_send_mlat (ok : Bool) (m : Message) (s : UdpState) (h : inv s) :
    inv (send_mlat ok m s).1 := by
  unfold send_mlat
  set r := send_mlat_core m s with hr
  by_cases hb : r.1.used > 1400
  · simp only [hb, if_pos]
    exact inv_flush_of_ne ok r.1 (by omega)
  · simp only [hb, if_neg, if_false]
    unfold send_mlat_core at hr
    unfold inv at *
    by_cases h0 : s.used = 0
    · simp [hr, h0, prepare_header, rebase, HEADER_SIZE, MLAT_SHORT_SIZE,
        MLAT_LONG_SIZE]
      split <;> split <;> simp
    · have hbase : s.base_timestamp ≠ none := fun e => h0 (h.mpr e)
      simp [hr, h0, prepare_header, rebase, HEADER_SIZE, MLAT_SHORT_SIZE,
        MLAT_LONG_SIZE]
      split <;> split <;> simp_all <;> omega

theorem inv_send_sync (ok : Bool) (em om : Message) (s : UdpState) (h : inv s) :
    inv (send_sync ok em om s).1 := by
  unfold send_sync
  set r := send_sync_core em om s with hr
  by_cases hb : r.1.used > 1400
  · simp only [hb, if_pos]
    exact inv_flush_of_ne ok r.1 (by omega)
  · simp only [hb, if_neg, if_false]
    unfold send_sync_core at hr
    unfold inv at *
    by_cases h0 : s.used = 0
    · simp [hr, h0, prepare_header, rebase, HEADER_SIZE, SYNC_SIZE,
        ABS_SYNC_SIZE]
      split <;> [skip; split] <;> simp
    · have hbase : s.base_timestamp ≠ none := fun e => h0 (h.mpr e)
      simp [hr, h0, prepare_header, rebase, HEADER_SIZE, SYNC_SIZE,
        ABS_SYNC_SIZE]
      split <;> [skip; split] <;> simp_all <;> omega

/-! ## Claim theorems -/

/-- C6: flush() on an empty buffer changes nothing; on a non-empty
buffer the state change is independent of the send outcome (the failure
is swallowed, no retry), exactly one send is attempted, the byte-count
statistic grows by the occupied length, and afterwards used is 0, the
base timestamp is cleared, the sequence is incremented mod 2^16 and the
sent-datagram counter is incremented. -/
theorem C6_flush_spec (s : UdpState) (ok : Bool) :
    flush ok s = flush true s ∧
    (s.used = 0 → flush ok s = s) ∧
    (s.used ≠ 0 →
      (flush ok s).used = 0 ∧
      (flush ok s).base_timestamp = none ∧
      (flush ok s).seq = (s.seq + 1) % 65536 ∧
      (flush ok s).count = s.count + 1 ∧
      (flush ok s).udpBytes = s.udpBytes + s.used ∧
      (flush ok s).sendAttempts = s.sendAttempts + 1) := by
  unfold flush
  refine ⟨rfl, ?_, ?_⟩ <;> intro h <;> simp [h]

/-- C6 witness at a concrete non-empty state. -/
theorem C6_flush_spec_witness :
    (flush false ⟨1, some 42, 29, 7, 3, 5, 2⟩).used = 0 ∧
    (flush false ⟨1, some 42, 29, 7, 3, 5, 2⟩).base_timestamp = none ∧
    (flush false ⟨1, some 42, 29, 7, 3, 5, 2⟩).seq = 8 % 65536 ∧
    (flush false ⟨1, some 42, 29, 7, 3, 5, 2⟩).count = 4 ∧
    (flush false ⟨1, some 42, 29, 7, 3, 5, 2⟩).udpBytes = 34 ∧
    (flush false ⟨1, some 42, 29, 7, 3, 5, 2⟩).sendAttempts = 3 :=
  (C6_flush_spec ⟨1, some 42, 29, 7, 3, 5, 2⟩ false).2.2 (by decide)

/-- C9: close() zeroes used, discarding any batched-but-unflushed
submessages; it attempts no send and leaves the statistics, the
sequence counter and the sent-datagram counter untouched. -/
theorem C9_close_discards (s : UdpState) :
    (close s).used = 0 ∧
    (close s).sendAttempts = s.sendAttempts ∧
    (close s).seq = s.seq ∧
    (close s).count = s.count ∧
    (close s).udpBytes = s.udpBytes :=
  ⟨rfl, rfl, rfl, rfl, rfl⟩

/-- C2 counterexample: close() on a non-empty buffer zeroes used but
leaves the base timestamp set, violating the invariant
used = 0 iff base_timestamp = none.  The state is reached by a single
send_mlat from a fresh connection. -/
theorem C2_counterexample :
    (close (send_mlat true ⟨0xABCDEF, 1000, List.replicate 7 0, 0⟩
        (initUdp 0)).1).used = 0 ∧
    (close (send_mlat true ⟨0xABCDEF, 1000, List.replicate 7 0, 0⟩
        (initUdp 0)).1).base_timestamp = some 1000 := by
  decide

/-- C2 amended: start, send_mlat, send_sync and flush preserve the
invariant used = 0 iff base_timestamp = none; close zeroes used but
leaves base_timestamp, so it preserves the invariant only when the
buffer is already empty. -/
theorem C2_invariant_preservation (s : UdpState) (ok : Bool) (m em om : Message)
    (h : inv s) :
    inv (start s) ∧
    inv (send_mlat ok m s).1 ∧
    inv (send_sync ok em om s).1 ∧
    inv (flush ok s) ∧
    (s.used = 0 → inv (close s)) := by
  refine ⟨h, inv_send_mlat ok m s h, inv_send_sync ok em om s h,
    inv_flush ok s h, ?_⟩
  intro h0
  unfold inv close at *
  simpa using h.mp h0

/-- C2 amended witness at a concrete empty state. -/
theorem C2_invariant_preservation_witness :
    inv (start (initUdp 3)) ∧
    inv (send_mlat true ⟨0xABCDEF, 1000, List.replicate 7 0, 0⟩ (initUdp 3)).1 ∧
    inv (send_sync true ⟨0xABCDEF, 1000, List.replicate 14 0, 17⟩
        ⟨0x123456, 1010, List.replicate 14 0, 17⟩ (initUdp 3)).1 ∧
    inv (flush true (initUdp 3)) ∧
    (UdpState.used (initUdp 3) = 0 → inv (close (initUdp 3))) :=
  C2_invariant_preservation (initUdp 3) true
    ⟨0xABCDEF, 1000, List.replicate 7 0, 0⟩
    ⟨0xABCDEF, 1000, List.replicate 14 0, 17⟩
    ⟨0x123456, 1010, List.replicate 14 0, 17⟩ (by decide)

/-- C4: appending a message into a non-empty buffer whose base b is more
than 0x7FFFFFF0 ticks away emits a REBASE submessage carrying the new
base (the message timestamp) before the MLAT submessage, whose encoded
delta is 0; a 7-byte payload takes MLAT_SHORT and a 14-byte payload
takes MLAT_LONG. -/
theorem C4_mlat_rebase (ok : Bool) (m : Message) (s : UdpState) (b : Nat)
    (h0 : s.used ≠ 0) (hb : s.base_timestamp = some b)
    (hfar : ((m.timestamp : Int) - (b : Int)).natAbs > 0x7FFFFFF0) :
    (m.payload.length = 7 →
      (send_mlat ok m s).2 =
        [Item.sub (Submsg.rebase m.timestamp),
         Item.sub (Submsg.mlatShort m.address 0 m.payload)]) ∧
    (m.payload.length = 14 →
      (send_mlat ok m s).2 =
        [Item.sub (Submsg.rebase m.timestamp),
         Item.sub (Submsg.mlatLong m.address 0 m.payload)]) := by
  constructor <;> intro hlen <;>
    simp [send_mlat, send_mlat_core, baseOf, h0, hb, hfar, hlen]

/-- C4 witness: concrete state with base 1000 and a message
0x7FFFFFF1 ticks later. -/
theorem C4_mlat_rebase_witness :
    (send_mlat true ⟨0xABCDEF, 1000 + 0x7FFFFFF1, List.replicate 7 1, 0⟩
        ⟨0, some 1000, 29, 7, 3, 5, 2⟩).2 =
      [Item.sub (Submsg.rebase (1000 + 0x7FFFFFF1)),
       Item.sub (Submsg.mlatShort 0xABCDEF 0 (List.replicate 7 1))] :=
  (C4_mlat_rebase true ⟨0xABCDEF, 1000 + 0x7FFFFFF1, List.replicate 7 1, 0⟩
    ⟨0, some 1000, 29, 7, 3, 5, 2⟩ 1000
    (by decide) rfl (by decide)).1 (by decide)

theorem beBytes_length (w : Nat) : ∀ v : Nat, (beBytes w v).length = w := by
  induction w with
  | zero => intro v; rfl
  | succ w ih => intro v; simp [beBytes, ih]

theorem foldl_beBytes (w : Nat) : ∀ a v : Nat,
    (beBytes w v).foldl (fun x b => x * 256 + b) a = a * 256 ^ w + v % 256 ^ w := by
  induction w with
  | zero => intro a v; simp [beBytes, Nat.mod_one]
  | succ w ih =>
    intro a v
    rw [beBytes, List.foldl_cons, ih]
    have h : v % (256 ^ w * 256) = v % 256 ^ w + 256 ^ w * (v / 256 ^ w % 256) :=
      Nat.mod_mul
    rw [pow_succ, h]
    ring

theorem fromBE_beBytes (w v : Nat) : fromBE (beBytes w v) = v % 256 ^ w := by
  simpa [fromBE] using foldl_beBytes w 0 v

theorem padTo_length (n : Nat) (p : List Nat) : (padTo n p).length = n := by
  simp [padTo]
  omega

theorem encodeItem_length (it : Item) : (encodeItem it).length = itemSize it := by
  cases it with
  | header k q b =>
    simp [encodeItem, itemSize, beBytes_length, HEADER_SIZE]
  | sub m =>
    cases m <;>
      simp [encodeItem, encodeSub, itemSize, addrBytes, int32bytes,
        beBytes_length, padTo_length, SYNC_SIZE, MLAT_SHORT_SIZE,
        MLAT_LONG_SIZE, REBASE_SIZE, ABS_SYNC_SIZE]

theorem decodeAbs_encode (a tse tso : Nat) (pe po : List Nat) :
    decodeAbsTimestamps (encodeSub (Submsg.absSync a tse tso pe po)) =
      (tse % 2 ^ 64, tso % 2 ^ 64) := by
  have hE : encodeSub (Submsg.absSync a tse tso pe po) =
      6 :: a / 65536 % 256 :: a / 256 % 256 :: a % 256 ::
        (beBytes 8 tse ++ (beBytes 8 tso ++ (padTo 14 pe ++ padTo 14 po))) := by
    simp [encodeSub, addrBytes]
  unfold decodeAbsTimestamps
  rw [hE]
  have h4 : List.drop 4 (6 :: a / 65536 % 256 :: a / 256 % 256 :: a % 256 ::
      (beBytes 8 tse ++ (beBytes 8 tso ++ (padTo 14 pe ++ padTo 14 po)))) =
      beBytes 8 tse ++ (beBytes 8 tso ++ (padTo 14 pe ++ padTo 14 po)) := rfl
  have h12 : List.drop 12 (6 :: a / 65536 % 256 :: a / 256 % 256 :: a % 256 ::
      (beBytes 8 tse ++ (beBytes 8 tso ++ (padTo 14 pe ++ padTo 14 po)))) =
      List.drop 8 (beBytes 8 tse ++
        (beBytes 8 tso ++ (padTo 14 pe ++ padTo 14 po))) := rfl
  rw [h4, h12, List.drop_left' (beBytes_length 8 tse),
    List.take_left' (beBytes_length 8 tse),
    List.take_left' (beBytes_length 8 tso),
    fromBE_beBytes, fromBE_beBytes]
  norm_num

/-- C5: appending a sync pair into a non-empty buffer with base b: when
the two timestamps differ by more than 0xFFFFFFF0 an ABS_SYNC
submessage is emitted whose two 64-bit timestamps round-trip exactly
through the wire bytes; otherwise both deltas come from the current
base, and when either exceeds 0x7FFFFFF0 in magnitude a REBASE to the
pair mean timestamp is emitted first and both deltas are recomputed
from that mean before the SYNC submessage. -/
theorem C5_sync_spec (ok : Bool) (em om : Message) (s : UdpState) (b : Nat)
    (h0 : s.used ≠ 0) (hb : s.base_timestamp = some b)
    (he : em.timestamp < 2 ^ 64) (ho : om.timestamp < 2 ^ 64) :
    (((em.timestamp : Int) - (om.timestamp : Int)).natAbs > 0xFFFFFFF0 →
      (send_sync ok em om s).2 =
        [Item.sub (Submsg.absSync em.address em.timestamp om.timestamp
          em.payload om.payload)] ∧
      decodeAbsTimestamps (encodeSub (Submsg.absSync em.address em.timestamp
        om.timestamp em.payload om.payload)) = (em.timestamp, om.timestamp)) ∧
    (((em.timestamp : Int) - (om.timestamp : Int)).natAbs ≤ 0xFFFFFFF0 →
      ((((em.timestamp : Int) - (b : Int)).natAbs > 0x7FFFFFF0 ∨
          ((om.timestamp : Int) - (b : Int)).natAbs > 0x7FFFFFF0) →
        (send_sync ok em om s).2 =
          [Item.sub (Submsg.rebase ((em.timestamp + om.timestamp) / 2)),
           Item.sub (Submsg.sync em.address
             ((em.timestamp : Int) - (((em.timestamp + om.timestamp) / 2 : Nat) : Int))
             ((om.timestamp : Int) - (((em.timestamp + om.timestamp) / 2 : Nat) : Int))
             em.payload om.payload)]) ∧
      ((((em.timestamp : Int) - (b : Int)).natAbs ≤ 0x7FFFFFF0 ∧
          ((om.timestamp : Int) - (b : Int)).natAbs ≤ 0x7FFFFFF0) →
        (send_sync ok em om s).2 =
          [Item.sub (Submsg.sync em.address
             ((em.timestamp : Int) - (b : Int))
             ((om.timestamp : Int) - (b : Int))
             em.payload om.payload)])) := by
  constructor
  · intro hfar
    refine ⟨?_, ?_⟩
    · simp [send_sync, send_sync_core, h0, hfar]
    · rw [decodeAbs_encode]
      rw [Nat.mod_eq_of_lt he, Nat.mod_eq_of_lt ho]
  · intro hclose
    have hclose' : ¬(((em.timestamp : Int) - (om.timestamp : Int)).natAbs >
        0xFFFFFFF0) := by omega
    constructor
    · intro hOr
      simp [send_sync, send_sync_core, baseOf, h0, hb, hclose', hOr, rebase]
    · intro hAnd
      obtain ⟨ha1, ha2⟩ := hAnd
      have h1 : ¬(((em.timestamp : Int) - (b : Int)).natAbs > 0x7FFFFFF0) := by
        omega
      have h2 : ¬(((om.timestamp : Int) - (b : Int)).natAbs > 0x7FFFFFF0) := by
        omega
      simp [send_sync, send_sync_core, baseOf, h0, hb, hclose', h1, h2]

/-- C5 witness: a concrete pair whose timestamps are 0xFFFFFFF1 apart,
taking the ABS_SYNC branch with an exact round-trip. -/
theorem C5_sync_spec_witness :
    (send_sync true ⟨0xABCDEF, 0xFFFFFFF1 + 50, List.replicate 14 1, 17⟩
        ⟨0x123456, 50, List.replicate 14 2, 17⟩ ⟨0, some 1000, 29, 7, 3, 5, 2⟩).2 =
      [Item.sub (Submsg.absSync 0xABCDEF (0xFFFFFFF1 + 50) 50
        (List.replicate 14 1) (List.replicate 14 2))] ∧
    decodeAbsTimestamps (encodeSub (Submsg.absSync 0xABCDEF (0xFFFFFFF1 + 50) 50
        (List.replicate 14 1) (List.replicate 14 2))) =
      (0xFFFFFFF1 + 50, 50) :=
  (C5_sync_spec true ⟨0xABCDEF, 0xFFFFFFF1 + 50, List.replicate 14 1, 17⟩
    ⟨0x123456, 50, List.replicate 14 2, 17⟩ ⟨0, some 1000, 29, 7, 3, 5, 2⟩ 1000
    (by decide) rfl (by norm_num) (by norm_num)).1 (by norm_num)

theorem send_mlat_core_used_bound (m : Message) (s0 : UdpState)
    (h : s0.used ≤ 1400) : (send_mlat_core m s0).1.used ≤ 1449 := by
  unfold send_mlat_core prepare_header rebase
  split_ifs <;>
    simp_all [apply_ite UdpState.used, HEADER_SIZE, REBASE_SIZE,
      MLAT_SHORT_SIZE, MLAT_LONG_SIZE] <;>
    (try split_ifs) <;> (try simp_all) <;> omega

theorem send_sync_core_used_bound (em om : Message) (s0 : UdpState)
    (h : s0.used ≤ 1400) : (send_sync_core em om s0).1.used ≤ 1449 := by
  unfold send_sync_core prepare_header rebase
  split_ifs <;>
    simp_all [apply_ite UdpState.used, HEADER_SIZE, REBASE_SIZE, SYNC_SIZE,
      ABS_SYNC_SIZE] <;>
    (try split_ifs) <;> (try simp_all) <;> omega

theorem stepOp_used_bound (op : Op) (s : UdpState) (_h : s.used ≤ 1400) :
    (stepOp op s).used ≤ 1400 := by
  cases op with
  | mlat ok m =>
    show (send_mlat ok m s).1.used ≤ 1400
    unfold send_mlat
    by_cases hb : (send_mlat_core m s).1.used > 1400
    · simp [hb, flush_used]
    · simp [hb]
      omega
  | sync ok em om =>
    show (send_sync ok em om s).1.used ≤ 1400
    unfold send_sync
    by_cases hb : (send_sync_core em om s).1.used > 1400
    · simp [hb, flush_used]
    · simp [hb]
      omega

theorem opPeak_bound (op : Op) (s : UdpState) (h : s.used ≤ 1400) :
    opPeak op s ≤ 1449 := by
  cases op with
  | mlat ok m => exact send_mlat_core_used_bound m s h
  | sync ok em om => exact send_sync_core_used_bound em om s h

theorem runPeak_bound : ∀ (ops : List Op) (s : UdpState), s.used ≤ 1400 →
    runPeak ops s ≤ 1449
  | [], _, _ => by simp [runPeak]
  | op :: ops, s, h => by
    have h1 := opPeak_bound op s h
    have h2 := runPeak_bound ops (stepOp op s) (stepOp_used_bound op s h)
    simp [runPeak]
    omega

theorem runOps_used_bound : ∀ (ops : List Op) (s : UdpState), s.used ≤ 1400 →
    (runOps ops s).used ≤ 1400
  | [], _, h => h
  | op :: ops, s, h =>
    runOps_used_bound ops (stepOp op s) (stepOp_used_bound op s h)

/-- C7: over any sequence of send_mlat/send_sync calls from a fresh
connection, buffer occupancy never exceeds 1500 (in fact 1449: an
append that leaves more than 1400 bytes flushes immediately, and
header + rebase + largest submessage fits the headroom), the occupancy
between calls never exceeds 1400, and every packed item occupies
exactly its struct size, so every pack_into writes within the
1500-byte buffer. -/
theorem C7_buffer_bound (ops : List Op) (key : Nat) :
    runPeak ops (initUdp key) ≤ 1500 ∧
    (runOps ops (initUdp key)).used ≤ 1400 ∧
    ∀ it : Item, (encodeItem it).length = itemSize it := by
  refine ⟨?_, ?_, encodeItem_length⟩
  · have := runPeak_bound ops (initUdp key) (by simp [initUdp])
    omega
  · exact runOps_used_bound ops (initUdp key) (by simp [initUdp])

theorem splitSep_ne_nil [DecidableEq α] (sep : α) :
    ∀ l : List α, splitSep sep l ≠ []
  | [] => by simp [splitSep]
  | a :: rest => by
    unfold splitSep
    split_ifs
    · simp
    · split <;> simp

theorem joinP_cons₂ (l l' : List α) (ls ys : List (List α)) :
    joinP (l :: l' :: ls) ys = l :: joinP (l' :: ls) ys := rfl

theorem splitSep_append [DecidableEq α] (sep : α) :
    ∀ x y : List α,
      splitSep sep (x ++ y) = joinP (splitSep sep x) (splitSep sep y)
  | [], y => by
    cases h : splitSep sep y with
    | nil => exact absurd h (splitSep_ne_nil sep y)
    | cons hh tt => simp [splitSep, joinP, h]
  | a :: x', y => by
    have ih := splitSep_append sep x' y
    by_cases hsep : a = sep
    · cases h : splitSep sep x' with
      | nil => exact absurd h (splitSep_ne_nil sep x')
      | cons hh tt => simp [splitSep, hsep, ih, h, joinP]
    · cases h : splitSep sep x' with
      | nil => exact absurd h (splitSep_ne_nil sep x')
      | cons hh tt =>
        cases tt with
        | nil =>
          cases hy : splitSep sep y with
          | nil => exact absurd hy (splitSep_ne_nil sep y)
          | cons yh yt => simp [splitSep, hsep, ih, h, hy, joinP]
        | cons t1 ts => simp [splitSep, hsep, ih, h, joinP]

theorem not_mem_of_mem_splitSep [DecidableEq α] (sep : α) :
    ∀ (l m : List α), m ∈ splitSep sep l → sep ∉ m
  | [], m, hm => by
    simp [splitSep] at hm
    simp [hm]
  | a :: rest, m, hm => by
    unfold splitSep at hm
    split_ifs at hm with hsep
    · rcases List.mem_cons.mp hm with h | h
      · simp [h]
      · exact not_mem_of_mem_splitSep sep rest m h
    · cases h : splitSep sep rest with
      | nil => exact absurd h (splitSep_ne_nil sep rest)
      | cons hh tt =>
        rw [h] at hm
        rcases List.mem_cons.mp hm with h1 | h1
        · subst h1
          intro hcon
          rcases List.mem_cons.mp hcon with h2 | h2
          · exact hsep h2.symm
          · exact not_mem_of_mem_splitSep sep rest hh
              (by rw [h]; exact List.mem_cons_self hh tt) h2
        · exact not_mem_of_mem_splitSep sep rest m
            (by rw [h]; exact List.mem_cons_of_mem hh h1)

theorem splitSep_eq_single [DecidableEq α] (sep : α) :
    ∀ l : List α, sep ∉ l → splitSep sep l = [l]
  | [], _ => rfl
  | a :: rest, h => by
    have ha : ¬(a = sep) := fun e => h (by simp [e])
    have hr : sep ∉ rest := fun e => h (List.mem_cons_of_mem a e)
    simp [splitSep, ha, splitSep_eq_single sep rest hr]

theorem getLastD_mem (l : List α) (d : α) (h : l ≠ []) : l.getLastD d ∈ l := by
  rw [List.getLastD_eq_getLast?, List.getLast?_eq_getLast l h]
  exact List.getLast_mem h

theorem getLastD_append_right (l1 l2 : List α) (d : α) (h : l2 ≠ []) :
    (l1 ++ l2).getLastD d = l2.getLastD d := by
  rw [List.getLastD_eq_getLast?, List.getLastD_eq_getLast?,
    List.getLast?_append_of_ne_nil]
  exact h

theorem getLastD_eq_dropLast_decomp (l : List α) (d : α) (h : l ≠ []) :
    l.dropLast ++ [l.getLastD d] = l := by
  rw [List.getLastD_eq_getLast?, List.getLast?_eq_getLast l h]
  exact List.dropLast_append_getLast h

theorem joinP_append_singleton :
    ∀ (as : List (List α)) (l : List α) (ys : List (List α)),
      joinP (as ++ [l]) ys = as ++ joinP [l] ys
  | [], _, _ => rfl
  | a :: as, l, ys => by
    have ih := joinP_append_singleton as l ys
    cases as with
    | nil => rfl
    | cons b bs =>
      simp only [List.cons_append] at ih ⊢
      rw [joinP_cons₂, ih]

theorem handle_read_append (p c1 c2 : List Nat) :
    handle_read p (c1 ++ c2) =
      ((handle_read (handle_read p c1).1 c2).1,
       (handle_read p c1).2 ++ (handle_read (handle_read p c1).1 c2).2) := by
  unfold handle_read
  have hLne : splitSep 10 (p ++ c1) ≠ [] := splitSep_ne_nil 10 (p ++ c1)
  have hp1nosep : (10 : Nat) ∉ (splitSep 10 (p ++ c1)).getLastD [] :=
    not_mem_of_mem_splitSep 10 (p ++ c1) _
      (getLastD_mem (splitSep 10 (p ++ c1)) [] hLne)
  have h2 : splitSep 10 (p ++ (c1 ++ c2)) =
      joinP (splitSep 10 (p ++ c1)) (splitSep 10 c2) := by
    rw [← List.append_assoc]
    exact splitSep_append 10 (p ++ c1) c2
  have h3 : splitSep 10 ((splitSep 10 (p ++ c1)).getLastD [] ++ c2) =
      joinP [(splitSep 10 (p ++ c1)).getLastD []] (splitSep 10 c2) := by
    rw [splitSep_append, splitSep_eq_single 10 _ hp1nosep]
  have h4 : joinP (splitSep 10 (p ++ c1)) (splitSep 10 c2) =
      (splitSep 10 (p ++ c1)).dropLast ++
        joinP [(splitSep 10 (p ++ c1)).getLastD []] (splitSep 10 c2) := by
    conv_lhs =>
      rw [← getLastD_eq_dropLast_decomp (splitSep 10 (p ++ c1)) [] hLne]
    rw [joinP_append_singleton]
  have hJne : joinP [(splitSep 10 (p ++ c1)).getLastD []] (splitSep 10 c2) ≠
      [] := by
    rw [← h3]
    exact splitSep_ne_nil 10 _
  refine Prod.ext ?_ ?_
  · show (splitSep 10 (p ++ (c1 ++ c2))).getLastD [] = _
    rw [h2, h4, getLastD_append_right _ _ _ hJne, ← h3]
  · show (splitSep 10 (p ++ (c1 ++ c2))).dropLast = _
    rw [h2, h4, List.dropLast_append_of_ne_nil _ hJne, ← h3]

theorem feedAll_eq : ∀ (cs : List (List Nat)) (p : List Nat), (10 : Nat) ∉ p →
    feedAll cs p = handle_read p cs.flatten
  | [], p, hp => by
    simp [feedAll, handle_read, splitSep_eq_single 10 p hp]
  | c :: cs, p, hp => by
    have hns : (10 : Nat) ∉ (handle_read p c).1 := by
      unfold handle_read
      exact not_mem_of_mem_splitSep 10 (p ++ c) _
        (getLastD_mem _ _ (splitSep_ne_nil 10 (p ++ c)))
    have ih := feedAll_eq cs (handle_read p c).1 hns
    show ((feedAll cs (handle_read p c).1).1,
      (handle_read p c).2 ++ (feedAll cs (handle_read p c).1).2) = _
    rw [ih]
    have hfl : (c :: cs).flatten = c ++ cs.flatten := by simp
    rw [hfl, handle_read_append p c cs.flatten]

/-- C3: feeding a byte stream to the reader split into arbitrary
non-empty chunks yields the same final partial-line buffer and the same
complete segments, in the same order, as feeding it in a single chunk;
hence the dispatched records agree.  (An empty chunk means end-of-stream
and closes the reader, so only non-empty chunks arise.) -/
theorem C3_fragmentation_invariance (cs : List (List Nat))
    (_hne : ∀ c ∈ cs, c ≠ []) :
    feedAll cs [] = handle_read [] cs.flatten ∧
    (feedAll cs []).2.map dispatchLine =
      (handle_read [] cs.flatten).2.map dispatchLine := by
  have h := feedAll_eq cs [] (by simp)
  exact ⟨h, by rw [h]⟩

/-- C3 witness: the stream of the line mlat_junk by single bytes versus
in one chunk. -/
theorem C3_fragmentation_invariance_witness :
    feedAll [[116], [10], [97], [98]] [] = handle_read [] [116, 10, 97, 98] ∧
    (feedAll [[116], [10], [97], [98]] []).2.map dispatchLine =
      (handle_read [] [116, 10, 97, 98]).2.map dispatchLine :=
  C3_fragmentation_invariance [[116], [10], [97], [98]] (by decide)

theorem buildMessage_odd : ∀ l : List α, l.length % 2 = 1 →
    buildMessage l = buildMessage l.dropLast
  | [], h => by simp at h
  | [x], _ => by simp [buildMessage, evens, odds]
  | x :: y :: xs, h => by
    have hx : xs.length % 2 = 1 := by
      simp [List.length_cons] at h
      omega
    have hne : xs ≠ [] := by
      intro e
      subst e
      simp at hx
    have ih := buildMessage_odd xs hx
    have hd : (x :: y :: xs).dropLast = x :: y :: xs.dropLast := by
      cases xs with
      | nil => exact absurd rfl hne
      | cons a t => simp
    rw [buildMessage_cons_cons, hd, buildMessage_cons_cons, ih]

theorem dictGet_last_wins [DecidableEq α] (ps qs : List (α × β)) (k : α) (v : β)
    (h : ∀ p ∈ qs, p.1 ≠ k) : dictGet (ps ++ (k, v) :: qs) k = some v := by
  unfold dictGet
  rw [List.reverse_append, List.reverse_cons, List.append_assoc]
  rw [List.find?_append]
  have hnone : List.find? (fun p => decide (p.1 = k)) qs.reverse = none := by
    rw [List.find?_eq_none]
    intro p hp
    simp [h p (List.mem_reverse.mp hp)]
  rw [hnone]
  simp

/-- C10: a line whose tab-split yields an odd number of tokens does not
break the pairing: zip truncates to the shorter slice, so the final
unpaired token is dropped and the mapping equals that of the line
without it; and when a key occurs more than once the value of the last
occurrence wins in the dict. -/
theorem C10_odd_pairing :
    (∀ fields : List (List Char), fields.length % 2 = 1 →
      buildMessage fields = buildMessage fields.dropLast) ∧
    (∀ (ps qs : List (List Char × List Char)) (k v : List Char),
      (∀ p ∈ qs, p.1 ≠ k) → dictGet (ps ++ (k, v) :: qs) k = some v) :=
  ⟨fun fields h => buildMessage_odd fields h,
   fun ps qs k v h => dictGet_last_wins ps qs k v h⟩

/-- C10 witness: a 3-token line and a duplicated key. -/
theorem C10_odd_pairing_witness :
    buildMessage ["type".data, "mlat_wanted".data, "junk".data] =
      buildMessage (["type".data, "mlat_wanted".data, "junk".data].dropLast) ∧
    dictGet ([("a".data, "1".data)] ++ ("a".data, "2".data) :: []) "a".data =
      some "2".data :=
  ⟨C10_odd_pairing.1 ["type".data, "mlat_wanted".data, "junk".data] (by decide),
   C10_odd_pairing.2 [("a".data, "1".data)] [] "a".data "2".data (by simp)⟩

/-- C8: the line type mlat_wanted hexids ABCDEF 123456 dispatches
server_start_sending with exactly the two addresses, the line with an
empty hexids value dispatches the empty set, and in general any line
whose dict maps type to mlat_wanted and hexids to v dispatches the set
of hex-parsed space-separated tokens of v. -/
theorem C8_wanted_dispatch :
    process_line "type\tmlat_wanted\thexids\tABCDEF 123456".data =
      Dispatch.startSending {0xABCDEF, 0x123456} ∧
    process_line "type\tmlat_wanted\thexids\t".data =
      Dispatch.startSending ∅ ∧
    ∀ (line v : List Char) (xs : List Nat),
      dictGet (buildMessage (splitSep '\t' line)) "type".data =
        some "mlat_wanted".data →
      dictGet (buildMessage (splitSep '\t' line)) "hexids".data = some v →
      ((v = [] → process_line line = Dispatch.startSending ∅) ∧
       ((splitSep ' ' v).mapM parseHex = some xs → v ≠ [] →
         process_line line = Dispatch.startSending xs.toFinset)) := by
  refine ⟨by decide, by decide, ?_⟩
  intro line v xs ht hv
  have hpw : process_wanted_message (buildMessage (splitSep '\t' line)) =
      (if v = [] then Dispatch.startSending ∅
       else
         match (splitSep ' ' v).mapM parseHex with
         | some ys => Dispatch.startSending ys.toFinset
         | Option.none => Dispatch.none) := by
    unfold process_wanted_message
    rw [hv]
  have hpl : process_line line =
      process_wanted_message (buildMessage (splitSep '\t' line)) := by
    simp only [process_line]
    rw [ht]
    simp
  constructor
  · intro hnil
    rw [hpl, hpw, if_pos hnil]
  · intro hxs hvne
    rw [hpl, hpw, if_neg hvne, hxs]

/-- C8 witness: the concrete wanted line through the general clause. -/
theorem C8_wanted_dispatch_witness :
    process_line "type\tmlat_wanted\thexids\tABCDEF 123456".data =
      Dispatch.startSending ([0xABCDEF, 0x123456] : List Nat).toFinset :=
  (C8_wanted_dispatch.2.2 "type\tmlat_wanted\thexids\tABCDEF 123456".data
    "ABCDEF 123456".data [0xABCDEF, 0x123456] (by decide) (by decide)).2
    (by decide) (by decide)

/-- C1 counterexample: an append that pushes the outbound buffer past
65536 bytes completes normally, returning the whole data with nothing
truncated and raising no error; the overflow IOError only appears later
in handle_write, the drain callback. -/
theorem C1_counterexample :
    send_message (List.replicate 65536 97) [("type".data, "mlat_event".data)] =
      List.replicate 65536 97 ++
        encodeAscii (formatMessage [("type".data, "mlat_event".data)]) ∧
    (send_message (List.replicate 65536 97)
        [("type".data, "mlat_event".data)]).length = 65552 ∧
    handle_write 0 (send_message (List.replicate 65536 97)
        [("type".data, "mlat_event".data)]) =
      Except.error "Server write buffer overflow (too much unsent data)" := by
  have h16 : (encodeAscii (formatMessage
      [("type".data, "mlat_event".data)])).length = 16 := by decide
  have hlen : (send_message (List.replicate 65536 97)
      [("type".data, "mlat_event".data)]).length = 65552 := by
    unfold send_message
    rw [List.length_append, List.length_replicate, h16]
  have hne : send_message (List.replicate 65536 97)
      [("type".data, "mlat_event".data)] ≠ [] := by
    intro e
    rw [e] at hlen
    simp at hlen
  refine ⟨rfl, hlen, ?_⟩
  unfold handle_write
  rw [if_neg hne, List.drop_zero, if_pos (by rw [hlen]; norm_num)]

/-- C1 amended: appends to the outbound buffer never raise and never
drop data (the old buffer is a prefix of the new one and the length
grows by exactly the encoded line); the fatal overflow error is raised
in handle_write exactly when more than 65536 bytes remain unsent after
removing the bytes the stream accepted, and a successful drain removes
exactly the accepted prefix. -/
theorem C1_overflow_at_drain (writebuf : List Nat)
    (kvs : List (List Char × List Char)) (sent : Nat) :
    writebuf <+: send_message writebuf kvs ∧
    (send_message writebuf kvs).length =
      writebuf.length + (encodeAscii (formatMessage kvs)).length ∧
    ((∃ e, handle_write sent writebuf = Except.error e) ↔
      (writebuf ≠ [] ∧ writebuf.length - sent > 65536)) ∧
    (∀ rest, handle_write sent writebuf = Except.ok rest →
      rest = writebuf.drop sent) := by
  refine ⟨List.prefix_append _ _, by simp [send_message], ?_, ?_⟩
  · unfold handle_write
    by_cases hb : writebuf = []
    · simp [hb]
    · by_cases hov : (writebuf.drop sent).length > 65536
      · simp only [hb, if_neg, if_false, hov, if_pos, if_true]
        simp [hb, List.length_drop] at hov ⊢
        omega
      · simp only [hb, if_neg, if_false, hov, if_pos, if_true]
        simp [hb, List.length_drop] at hov ⊢
        omega
  · intro rest h
    unfold handle_write at h
    by_cases hb : writebuf = []
    · subst hb
      simp at h
      simp [h, List.drop_nil]
    · rw [if_neg hb] at h
      simp only [] at h
      by_cases hov : (writebuf.drop sent).length > 65536
      · rw [if_pos hov] at h
        exact absurd h (by simp)
      · rw [if_neg hov] at h
        exact (Except.ok.inj h).symm

/-- C1 amended witness: a concrete drain that accepts one byte. -/
theorem C1_overflow_at_drain_witness :
    ([98] : List Nat) = List.drop 1 [97, 98] :=
  (C1_overflow_at_drain [97, 98] [] 1).2.2.2 [98] (by rfl)

end Adept
